import Mathlib

/-!
Verification of the job-search-companion automation core.

This file gives a shallow embedding, in Lean 4, of the AI-driven browser
navigation engine (`AINavigator` in the repository source) and of the
authentication flow manager (`src/lib/auth/auth-flow-manager.ts`), and proves
or refutes the specification claims about them.

Effectful primitives (CDP protocol calls, LLM completions, Playwright page
actions) are modelled by explicit environments recording the outcome of each
call: a fallible call is an `Except Unit α` value, a page primitive is a
constructor of an explicit `Prim` trace type.  JavaScript `Map`s are modelled
as insertion-ordered association lists, JavaScript strings as Lean `String`s
with ASCII-faithful helper functions defined below (the built-in `String`
functions of core Lean do not reduce in the kernel, so we recurse over
`String.data` directly).
-/

/-! ## String helpers (JS semantics, kernel-computable) -/

/-- Lowercase every character of a string (models JS `String.prototype.toLowerCase`
for the ASCII strings this code base compares). -/
def jsToLower (s : String) : String :=
  String.mk (s.data.map Char.toLower)

/-- Does `pat` occur at the head of `s`? (helper for substring search). -/
def charsStartWith : List Char → List Char → Bool
  | [], _ => true
  | _ :: _, [] => false
  | p :: ps, c :: cs => p == c && charsStartWith ps cs

/-- Does `pat` occur anywhere in `s`? (helper for substring search). -/
def charsContain (pat : List Char) : List Char → Bool
  | [] => charsStartWith pat []
  | c :: cs => charsStartWith pat (c :: cs) || charsContain pat cs

/-- Models JS `String.prototype.includes`. -/
def strIncludes (s pat : String) : Bool :=
  charsContain pat.data s.data

/-- JS whitespace test for the characters that occur in this code base. -/
def isSpaceChar (c : Char) : Bool :=
  c == ' ' || c == '\t' || c == '\n' || c == '\r'

/-- Models JS `String.prototype.trim` (strip leading and trailing whitespace). -/
def jsTrim (s : String) : String :=
  String.mk (((s.data.dropWhile isSpaceChar).reverse.dropWhile isSpaceChar).reverse)

/-- Models JS `Array.prototype.join(' ')`. -/
def joinSpace : List String → String
  | [] => ""
  | [s] => s
  | s :: rest => s ++ " " ++ joinSpace rest

/-- JS string truthiness: `undefined` and `""` are falsy. -/
def truthyStr : Option String → Bool
  | none => false
  | some s => s != ""

/-! ## Association-list model of JS `Map` / plain objects -/

/-- Models `Map.prototype.set` / `obj[k] = v`: replace the value at an existing key
(keeping insertion order), or append a new entry. -/
def mapSet {α : Type} : List (Nat × α) → Nat → α → List (Nat × α)
  | [], k, v => [(k, v)]
  | (k', v') :: rest, k, v =>
    if k' = k then (k, v) :: rest else (k', v') :: mapSet rest k v

/-- Models `Map.prototype.get` / `obj[k]`: `none` models `undefined`. -/
def mapGet {α : Type} : List (Nat × α) → Nat → Option α
  | [], _ => none
  | (k', v) :: rest, k => if k' = k then some v else mapGet rest k

/-- String-keyed variant, for the per-(nodeType,tagName) sibling counters. -/
def smapSet {α : Type} : List (String × α) → String → α → List (String × α)
  | [], k, v => [(k, v)]
  | (k', v') :: rest, k, v =>
    if k' = k then (k, v) :: rest else (k', v') :: smapSet rest k v

/-- String-keyed variant of `mapGet`. -/
def smapGet {α : Type} : List (String × α) → String → Option α
  | [], _ => none
  | (k', v) :: rest, k => if k' = k then some v else smapGet rest k

/-! ## Auth flow manager (`src/lib/auth/auth-flow-manager.ts`) -/

/-- The fixed keyword lexicon `AUTH_INDICATORS` from `auth-flow-manager.ts`. -/
def AUTH_INDICATORS : List String :=
  [ "login", "log in", "sign in", "signin", "authenticate", "email field",
    "password field", "username field", "create account", "register",
    "sign up", "continue with google", "join now", "forgot password" ]

/-- One observation returned by `page.observe`: a description plus the
auxiliary `arguments` array (defaulting to `[]` when absent). -/
structure Observation where
  description : String
  arguments : List String
deriving Repr, DecidableEq

/-- The per-observation matching step of `detectAuthRequired`: lowercase the
description and the space-joined arguments, concatenate them with a space, and
test whether any lexicon keyword occurs in the combined text. -/
def isAuthElement (obs : Observation) : Bool :=
  let desc := jsToLower obs.description
  let argsText := jsToLower (joinSpace obs.arguments)
  let combinedText := desc ++ " " ++ argsText
  AUTH_INDICATORS.any (fun indicator => strIncludes combinedText indicator)

/-- The function `detectAuthRequired`: the `page.observe` call either yields a list of
observations or throws (`Except.error`).  On success the function counts the
observations matching the lexicon and returns whether the count is positive;
on failure the catch block returns `true` (fail closed). -/
def detectAuthRequired (observeResult : Except Unit (List Observation)) : Bool :=
  match observeResult with
  | .ok authObservations =>
    decide (0 < (authObservations.filter isAuthElement).length)
  | .error _ => true

/-- The `AuthState.status` values of `auth-flow-manager.ts`. -/
inductive AuthStatus where
  | checking
  | required
  | inProgress
  | completed
  | failed
deriving Repr, DecidableEq

/-- The poll loop of `waitForAuthentication`: `polls` is the sequence of
`detectAuthRequired` outcomes observed at the 3-second poll instants that fit
before the 5-minute deadline; exhausting the list models the timeout.  The
loop returns `true` the first time a poll reports that auth is no longer
needed, and `false` on timeout. -/
def waitLoop : List Bool → Bool
  | [] => false
  | stillNeedsAuth :: rest => if !stillNeedsAuth then true else waitLoop rest

/-- The function `waitForAuthentication`: emits the `in-progress` state, then runs the poll
loop.  Result: (emitted statuses, authenticated?). -/
def waitForAuthentication (polls : List Bool) : List AuthStatus × Bool :=
  ([AuthStatus.inProgress], waitLoop polls)

/-- The function `checkAndHandleAuth`, reduced to its `AuthState` emission behaviour.
`authRequired` is the result of the initial `detectAuthRequired` call and
`polls` the results of the subsequent polls.  Note: in the source the block
emitting the `required` state (lines 98–104) is commented out, so after the
initial check the next emission comes from `waitForAuthentication`. -/
def checkAndHandleAuth (authRequired : Bool) (polls : List Bool) :
    List AuthStatus × Bool :=
  let checkingEmits := [AuthStatus.checking]
  if !authRequired then
    (checkingEmits ++ [AuthStatus.completed], true)
  else
    let waitResult := waitForAuthentication polls
    if waitResult.2 then
      (checkingEmits ++ waitResult.1 ++ [AuthStatus.completed], true)
    else
      (checkingEmits ++ waitResult.1 ++ [AuthStatus.failed], false)

/-! ## Tree filter (`filterMeaningfulNodes` in the navigator source) -/

/-- The fixed `NOISE_ROLES` set. -/
def NOISE_ROLES : List String :=
  ["generic", "presentation", "none", "InlineTextBox", "LineBreak",
    "StaticText"]

/-- The fixed `ALWAYS_INCLUDE_ROLES` set. -/
def ALWAYS_INCLUDE_ROLES : List String :=
  [ "button", "link", "textbox", "combobox", "checkbox", "radio", "searchbox",
    "menuitem", "tab", "option", "slider", "spinbutton",
    "heading", "article", "section", "main", "navigation", "banner",
    "contentinfo", "list", "listitem", "table", "row", "cell", "columnheader",
    "rowheader", "form", "group", "region", "landmark",
    "text", "paragraph", "document", "application",
    "RootWebArea", "WebArea" ]

/-- An accessibility-tree property entry: `prop.name` and the truthiness of
`prop.value?.value` (the flag properties tested here carry booleans; `none`
models an absent value, which is falsy). -/
structure AXProperty where
  name : String
  value : Option Bool
deriving Repr, DecidableEq

/-- A raw accessibility node as consumed by `filterMeaningfulNodes`:
`role`/`name`/`value` model `node.role?.value` etc. (`none` = absent), and
`childIds` the CDP child-id list. -/
structure AXFilterNode where
  nodeId : Nat
  role : Option String
  name : Option String
  value : Option String
  properties : List AXProperty
  childIds : List Nat
deriving Repr, DecidableEq

/-- Models `set.has(role)` where `role` may be `undefined` (JS `Set.has(undefined)`
is false for these sets). -/
def optRoleMem (set : List String) : Option String → Bool
  | some r => set.contains r
  | none => false

/-- The `node.properties?.some(...)` check: a property named `focusable`,
`clickable` or `editable` whose value is truthy. -/
def hasActionableProp (node : AXFilterNode) : Bool :=
  node.properties.any fun prop =>
    (["focusable", "clickable", "editable"].contains prop.name) &&
      prop.value.getD false

/-- The `name && name.length > 2` test applied to `node.name?.value?.trim()`
(and likewise for `value`): defined, nonempty after trimming, and longer than
2 characters. -/
def textLongEnough : Option String → Bool
  | some s =>
    let t := jsTrim s
    (t != "") && decide (2 < t.length)
  | none => false

/-- The `shouldInclude` predicate of `filterMeaningfulNodes`, translated
branch by branch: noise roles are dropped, allow-listed roles kept, then a
truthy focusable/clickable/editable property, meaningful name/value text, or
the presence of children keeps the node; otherwise it is dropped. -/
def shouldInclude (node : AXFilterNode) : Bool :=
  if optRoleMem NOISE_ROLES node.role then false
  else if optRoleMem ALWAYS_INCLUDE_ROLES node.role then true
  else if hasActionableProp node then true
  else if textLongEnough node.name || textLongEnough node.value then true
  else if 0 < node.childIds.length then true
  else false

/-- Models `const filtered = nodes.filter(shouldInclude)` — the set of surviving
nodes (the source afterwards rebuilds parent-child edges among exactly these
survivors). -/
def filteredMeaningful (nodes : List AXFilterNode) : List AXFilterNode :=
  nodes.filter shouldInclude

/-! ## Action executor (`act` in the navigator source) -/

/-- The action kinds of the `SingleAction` interface. -/
inductive ActKind where
  | click
  | type
  | select
  | press
  | clear
deriving Repr, DecidableEq

/-- A parsed `SingleAction`: `target`, `value` and `key` are optional strings
(`none` models an absent JSON field). -/
structure SingleAction where
  action : ActKind
  target : Option String
  value : Option String
  key : Option String
deriving Repr, DecidableEq

/-- A resolved element as returned by `findElements`. -/
structure FoundElement where
  selector : String
  xpath : String
  confidence : Rat
  description : String
deriving Repr, DecidableEq, Inhabited

/-- One Playwright page primitive invoked by `act`, recorded in the
execution trace. -/
inductive Prim where
  | click (selector : String)
  | fill (selector : String) (text : String)
  | typeText (selector : String) (text : String)
  | selectOption (selector : String) (value : String)
  | press (selector : String) (key : String)
  | keyboardPress (key : String)
  | keyboardType (text : String)
  | wait (ms : Nat)
deriving Repr, DecidableEq

/-- Stable insertion of an element in front of the first strictly
lower-confidence element (helper for the stable descending sort). -/
def insertByConfidence (e : FoundElement) :
    List FoundElement → List FoundElement
  | [] => [e]
  | x :: xs =>
    if x.confidence ≤ e.confidence then e :: x :: xs
    else x :: insertByConfidence e xs

/-- Models `elements.sort((a, b) => b.confidence - a.confidence)` — the JS
engine's stable sort, descending by confidence (ties keep original order). -/
def sortByConfidenceDesc : List FoundElement → List FoundElement
  | [] => []
  | e :: rest => insertByConfidence e (sortByConfidenceDesc rest)

/-- Environment for one `act` call, recording the outcome of each effectful
collaborator: the LLM plan parse, the `findElements` resolution of a target
description (which may depend on the page state, i.e. the primitives executed
so far, and may throw), and whether a given page primitive throws when invoked
on a given page state. -/
structure ActEnv where
  planResult : Except Unit (List SingleAction)
  resolve : List Prim → String → Except Unit (List FoundElement)
  primFails : List Prim → Prim → Bool

/-- Run one page primitive: on success it is appended to the trace, on a
throw the trace is unchanged and failure is reported. -/
def runPrim (env : ActEnv) (trace : List Prim) (p : Prim) :
    List Prim × Bool :=
  if env.primFails trace p then (trace, false) else (trace ++ [p], true)

/-- Run several page primitives in sequence, stopping at the first throw
(models the sequenced `await`s of the `type` branch). -/
def runPrims (env : ActEnv) (trace : List Prim) :
    List Prim → List Prim × Bool
  | [] => (trace, true)
  | p :: ps =>
    let r := runPrim env trace p
    if r.2 then runPrims env r.1 ps else (r.1, false)

/-- The per-action body of `act`'s loop, before the settle delay: if the
action has a truthy `target`, resolve it via `findElements` (a throw or an
empty candidate list makes the action fail) and dispatch on the action kind
against the highest-confidence candidate; otherwise a `press` with a truthy
key presses globally, a `type` with a truthy value types at the current
focus, and anything else does nothing. -/
def execBranch (env : ActEnv) (trace : List Prim) (a : SingleAction) :
    List Prim × Bool :=
  if truthyStr a.target then
    match env.resolve trace (a.target.getD "") with
    | .error _ => (trace, false)
    | .ok elements =>
      if elements.length = 0 then (trace, false)
      else
        let targetElement := (sortByConfidenceDesc elements).headI
        match a.action with
        | .click => runPrim env trace (.click targetElement.selector)
        | .type =>
          runPrims env trace
            [.click targetElement.selector,
              .fill targetElement.selector "",
              .typeText targetElement.selector (a.value.getD "")]
        | .clear => runPrim env trace (.fill targetElement.selector "")
        | .select =>
          runPrim env trace
            (.selectOption targetElement.selector (a.value.getD ""))
        | .press =>
          if truthyStr a.key then
            runPrim env trace (.press targetElement.selector (a.key.getD ""))
          else (trace, true)
  else if a.action = ActKind.press ∧ truthyStr a.key = true then
    runPrim env trace (.keyboardPress (a.key.getD ""))
  else if a.action = ActKind.type ∧ truthyStr a.value = true then
    runPrim env trace (.keyboardType (a.value.getD ""))
  else (trace, true)

/-- One full loop iteration of `act`: the action body followed (on success)
by the fixed 500ms settle delay `page.waitForTimeout(500)`. -/
def execAction (env : ActEnv) (trace : List Prim) (a : SingleAction) :
    List Prim × Bool :=
  let r := execBranch env trace a
  if r.2 then runPrim env r.1 (.wait 500) else (r.1, false)

/-- The `for (const action of actionPlan.actions)` loop of `act`: actions run
strictly in order; the first throw aborts the loop (the exception is caught by
`act`'s top-level handler, which returns `false`). -/
def actGo (env : ActEnv) (trace : List Prim) :
    List SingleAction → List Prim × Bool
  | [] => (trace, true)
  | a :: rest =>
    let r := execAction env trace a
    if r.2 then actGo env r.1 rest else (r.1, false)

/-- The function `act`: parse the instruction into a plan via the LLM (a throw is caught
and yields `false` with nothing executed), then execute the plan. The result
is the primitive trace together with the returned boolean. -/
def act (env : ActEnv) : List Prim × Bool :=
  match env.planResult with
  | .error _ => ([], false)
  | .ok actions => actGo env [] actions

/-- The predicate `planOk`: every action of the plan succeeds when run in sequence from the
given trace. -/
def planOk (env : ActEnv) (trace : List Prim) : List SingleAction → Bool
  | [] => true
  | a :: rest =>
    let r := execAction env trace a
    r.2 && planOk env r.1 rest

/-- A successfully executing plan: resolution always finds one element and no
primitive throws (used to witness the sequencing theorems). -/
def envSeq : ActEnv :=
  { planResult := Except.ok
      [⟨ActKind.click, some "the search box", none, none⟩,
        ⟨ActKind.type, some "the search box", some "hello", none⟩]
    resolve := fun _ _ => Except.ok
      [⟨"xpath=/html[1]/body[1]/input[1]", "/html[1]/body[1]/input[1]", 1,
        "search box"⟩]
    primFails := fun _ _ => false }

/-- An environment whose element resolution always returns zero candidates
(used to witness the failure-abort theorems). -/
def envNoCandidates : ActEnv :=
  { planResult := Except.ok
      [⟨ActKind.press, none, none, some "Enter"⟩,
        ⟨ActKind.click, some "the missing box", none, none⟩,
        ⟨ActKind.press, none, none, some "Enter"⟩]
    resolve := fun _ _ => Except.ok []
    primFails := fun _ _ => false }

/-- A plan consisting of a single `press` action that has a target description
but no key, on a page where that target resolves to zero candidates. -/
def envPressNoKey : ActEnv :=
  { planResult := Except.ok
      [⟨ActKind.press, some "the search box", none, none⟩]
    resolve := fun _ _ => Except.ok []
    primFails := fun _ _ => false }

/-- A plan consisting of a single `click` action without a target: no
execution branch applies to it. -/
def envMisfit : ActEnv :=
  { planResult := Except.ok [⟨ActKind.click, none, none, none⟩]
    resolve := fun _ _ => Except.ok []
    primFails := fun _ _ => false }

/-! ## Element resolver (`findElements`) and data extractor (`extract`) -/

/-- An `ElementMapping` entry: backend node id, XPath, best CSS selector and
attributes, as produced per node by `buildElementMappings`. -/
structure ElementMapping where
  backendNodeId : Nat
  xpath : String
  selector : String
  attributes : List (String × String)
deriving Repr, DecidableEq

/-- The result of one snapshot (`getFullAccessibilityTree`), as consumed by
`findElements`: the `backendNodeId → ElementMapping` map it returns and the
`nodeId → backendNodeId` map rebuilt by `formatAccessibilityTree`. -/
structure NavSnapshot where
  mappings : List (Nat × ElementMapping)
  nodeIdToBackendId : List (Nat × Nat)
deriving Repr, DecidableEq

/-- One element of the LLM's JSON answer.  The source accepts `nodeId` as a
number or a string and coerces strings with `parseInt`; `nodeId = none` models
a value whose coercion is `NaN` (so every map lookup on it misses). -/
structure LLMFoundElement where
  nodeId : Option Nat
  description : String
  confidence : Rat
deriving Repr, DecidableEq

/-- The `{elements: [...]}` JSON shape requested from the LLM. -/
structure FindElementsResponse where
  elements : List LLMFoundElement
deriving Repr, DecidableEq

/-- Environment of one `findElements` call: the outcome of the snapshot
acquisition (`waitForDOMSettle` + `getFullAccessibilityTree`, which rethrows
its protocol failures), and the outcome of the LLM completion (including its
JSON parse). -/
structure FindEnv where
  snapshot : Except Unit NavSnapshot
  llm : Except Unit FindElementsResponse

/-- The result-mapping loop of `findElements`: for each LLM element, coerce
the node id, look it up in the sequential-id map (a missing or zero backend id
is falsy and skips the element with a warning), then look up the element
mapping (a miss skips the element); hits emit a `FoundElement` whose selector
is the XPath with the `xpath=` prefix, with `confidence || 0.7` and the
element's description. -/
def resolveElements (elements : List LLMFoundElement) (snap : NavSnapshot) :
    List FoundElement :=
  elements.foldl
    (fun foundElements element =>
      match element.nodeId with
      | none => foundElements
      | some nodeIdNum =>
        match mapGet snap.nodeIdToBackendId nodeIdNum with
        | none => foundElements
        | some backendNodeId =>
          if backendNodeId ≠ 0 then
            match mapGet snap.mappings backendNodeId with
            | some mapping =>
              foundElements ++
                [{ selector := "xpath=" ++ mapping.xpath
                   xpath := mapping.xpath
                   description := element.description
                   confidence :=
                     if element.confidence = 0 then (7 : Rat) / 10
                     else element.confidence }]
            | none => foundElements
          else foundElements)
    []

/-- The function `findElements`: the snapshot is acquired *before* the `try` block, so a
snapshot failure propagates to the caller; the `try` only wraps the LLM call,
whose failure is caught and yields `[]`. -/
def findElements (env : FindEnv) : Except Unit (List FoundElement) :=
  match env.snapshot with
  | .error e => .error e
  | .ok snap =>
    match env.llm with
    | .error _ => .ok []
    | .ok response => .ok (resolveElements response.elements snap)

/-- Environment of one `extract` call: the (optional) area option, the
environment of the `findElements(options.area)` call, the two text reads
(`null` modelled as `none`), the tree snapshot used when no area is given,
and the outcome of the extraction LLM completion (`α` is the caller's target
shape). -/
structure ExtractEnv (α : Type) where
  area : Option String
  findEnv : FindEnv
  locatorText : Option String
  bodyText : Option String
  treeSnapshot : Except Unit String
  llm : Except Unit α

/-- The content-acquisition phase of `extract`, which runs *before* its `try`
block: with a truthy `area`, resolve it via `findElements` (a throw
propagates) and read the first element's text (or the body text when nothing
was found, with `null` coerced to `""`); with no area, take the formatted
tree from a fresh snapshot (a throw propagates). -/
def extractContent {α : Type} (env : ExtractEnv α) : Except Unit String :=
  if truthyStr env.area then
    match findElements env.findEnv with
    | .error e => .error e
    | .ok elements =>
      if 0 < elements.length then .ok (env.locatorText.getD "")
      else .ok (env.bodyText.getD "")
  else env.treeSnapshot

/-- The function `extract`: content acquisition happens before the `try`; only the LLM
call is guarded, its failure being caught and returned as `null` (`none`). -/
def extract {α : Type} (env : ExtractEnv α) : Except Unit (Option α) :=
  match extractContent env with
  | .error e => .error e
  | .ok _content =>
    match env.llm with
    | .error _ => .ok none
    | .ok result => .ok (some result)

/-- A `findElements` call whose snapshot acquisition throws. -/
def findEnvCrash : FindEnv :=
  { snapshot := Except.error (), llm := Except.ok ⟨[]⟩ }

/-- An `extract` call with an area whose resolution (snapshot) throws. -/
def extractEnvCrash : ExtractEnv Nat :=
  { area := some "job cards", findEnv := findEnvCrash, locatorText := none,
    bodyText := none, treeSnapshot := Except.ok "", llm := Except.ok 0 }

/-- A `findElements` call whose snapshot succeeds but whose LLM call throws. -/
def findEnvLLMErr : FindEnv :=
  { snapshot := Except.ok ⟨[], []⟩, llm := Except.error () }

/-- An `extract` call with no area, a good snapshot, and a failing LLM call. -/
def extractEnvLLMErr : ExtractEnv Nat :=
  { area := none, findEnv := findEnvLLMErr, locatorText := none,
    bodyText := none, treeSnapshot := Except.ok "[1] RootWebArea",
    llm := Except.error () }

/-- An `act` call whose plan-parsing LLM completion throws. -/
def actEnvPlanErr : ActEnv :=
  { planResult := Except.error (), resolve := fun _ _ => Except.ok [],
    primFails := fun _ _ => false }

/-! ## Snapshot state maps (`buildElementMappings`, `formatAccessibilityTree`,
`cleanup`) -/

/-- The value computed by the in-page evaluation of `buildElementMappings`
for one resolvable element node (tag name, attributes, generated XPath, best
CSS selector). -/
structure ElemInfo where
  tagName : String
  attributes : List (String × String)
  xpath : String
  selector : String
deriving Repr, DecidableEq

/-- A raw accessibility-tree node as handed to `buildElementMappings` and
`formatAccessibilityTree`: `backendDOMNodeId = 0` models a falsy/absent id,
`resolved = none` a node whose CDP resolution threw or returned no value, and
`children` the `node.children` array the formatting pass recurses into. -/
inductive AXRawNode where
  | mk (nodeId : Nat) (backendDOMNodeId : Nat) (resolved : Option ElemInfo)
      (children : List AXRawNode)
deriving Repr

/-- The sequential node id of a raw node. -/
def nodeIdOf : AXRawNode → Nat
  | .mk nodeId _ _ _ => nodeId

/-- The backend DOM node id of a raw node (0 = absent). -/
def backendIdOf : AXRawNode → Nat
  | .mk _ backendDOMNodeId _ _ => backendDOMNodeId

/-- The in-page resolution outcome of a raw node. -/
def resolvedOf : AXRawNode → Option ElemInfo
  | .mk _ _ resolved _ => resolved

/-- The instance state of the navigator that the snapshot passes mutate:
`elementMappings` (backendNodeId → ElementMapping) and `nodeIdToBackendId`
(sequential nodeId → backendNodeId). -/
structure NavState where
  elementMappings : List (Nat × ElementMapping)
  nodeIdToBackendId : List (Nat × Nat)
deriving Repr, DecidableEq

/-- The navigator's state at construction: both maps empty. -/
def initialNavState : NavState := ⟨[], []⟩

/-- The per-node body of `buildElementMappings`: nodes with a truthy backend
id whose in-page resolution produced a value are `set` into the element-map
(the map is *not* cleared first); unresolvable nodes are skipped. -/
def buildElementMappingsStep (m : List (Nat × ElementMapping))
    (n : AXRawNode) : List (Nat × ElementMapping) :=
  if backendIdOf n ≠ 0 then
    match resolvedOf n with
    | some info =>
      mapSet m (backendIdOf n)
        ⟨backendIdOf n, info.xpath, info.selector, info.attributes⟩
    | none => m
  else m

/-- The function `buildElementMappings`: a fold of the per-node body over the flat node
list, starting from the *current* map contents. -/
def buildElementMappings (nodes : List AXRawNode)
    (m : List (Nat × ElementMapping)) : List (Nat × ElementMapping) :=
  nodes.foldl buildElementMappingsStep m

mutual

/-- The recursive `buildMappings` helper of `formatAccessibilityTree`: insert
the node's `nodeId → backendDOMNodeId` entry (when the backend id is truthy),
then recurse into the children. -/
def axBuildMapping : AXRawNode → List (Nat × Nat) → List (Nat × Nat)
  | .mk nodeId backendDOMNodeId _ children, m =>
    let m1 := if backendDOMNodeId ≠ 0 then mapSet m nodeId backendDOMNodeId
      else m
    axBuildMappings children m1

/-- The helper `buildMappings` iterated over a node list. -/
def axBuildMappings : List AXRawNode → List (Nat × Nat) → List (Nat × Nat)
  | [], m => m
  | n :: rest, m => axBuildMappings rest (axBuildMapping n m)

end

/-- The state effect of `formatAccessibilityTree`: it *clears*
`nodeIdToBackendId` and rebuilds it over all nodes (the string rendering of
the tree does not touch the maps). -/
def formatTreeMappingsPass (nodes : List AXRawNode) (st : NavState) :
    NavState :=
  { st with nodeIdToBackendId := axBuildMappings nodes [] }

/-- One snapshot (`getFullAccessibilityTree`) as it affects the two maps:
`buildElementMappings` over the node list, then the mapping pass of
`formatAccessibilityTree`. -/
def snapshotStep (st : NavState) (nodes : List AXRawNode) : NavState :=
  formatTreeMappingsPass nodes
    { st with elementMappings := buildElementMappings nodes st.elementMappings }

/-- The function `cleanup`: detaches the CDP session and clears `elementMappings` (and
only that map). -/
def cleanupState (st : NavState) : NavState :=
  { st with elementMappings := [] }

/-- A node of the first snapshot: backend id 1. -/
def axNodeA : AXRawNode :=
  .mk 10 1 (some ⟨"input", [], "/html[1]/body[1]/input[1]", "#search"⟩) []

/-- A node of the second snapshot: backend id 2 (backend id 1 is gone). -/
def axNodeB : AXRawNode :=
  .mk 20 2 (some ⟨"a", [], "/html[1]/body[1]/a[1]", "#link"⟩) []

/-! ## XPath construction (`buildXPathMap` and the in-page XPath generator) -/

/-- A DOM node as returned by `DOM.getDocument`: `nodeType` (1 = element,
3 = text, 8 = comment, 9 = document), `nodeName`, `backendNodeId` (0 models a
falsy/absent id) and children. -/
inductive DomNode where
  | mk (nodeType : Nat) (nodeName : String) (backendNodeId : Nat)
      (children : List DomNode)
deriving Repr

/-- The `nodeType` of a DOM node. -/
def nodeTypeOf : DomNode → Nat
  | .mk t _ _ _ => t

/-- The `nodeName` of a DOM node. -/
def nodeNameOf : DomNode → String
  | .mk _ n _ _ => n

/-- The `backendNodeId` of a DOM node. -/
def domBackendIdOf : DomNode → Nat
  | .mk _ _ b _ => b

/-- The children of a DOM node. -/
def domChildrenOf : DomNode → List DomNode
  | .mk _ _ _ cs => cs

/-- The segment string built for one child in `buildXPathMap`: text nodes as
`text()[idx]`, comments as `comment()[idx]`, elements as `name[idx]` — the
index is emitted unconditionally. -/
def xpathSegment (nodeType : Nat) (name : String) (idx : Nat) : String :=
  if nodeType = 3 then "text()[" ++ toString idx ++ "]"
  else if nodeType = 8 then "comment()[" ++ toString idx ++ "]"
  else name ++ "[" ++ toString idx ++ "]"

mutual

/-- The function `buildXPathMap`: store `path || '/'` for a truthy backend id, then walk
the children depth-first with fresh per-parent sibling counters. -/
def buildXPathMap : DomNode → String → List (Nat × String) →
    List (Nat × String)
  | .mk _ _ backendNodeId children, path, xpathMap =>
    let m1 :=
      if backendNodeId ≠ 0 then
        mapSet xpathMap backendNodeId (if path = "" then "/" else path)
      else xpathMap
    buildXPathChildren children path [] m1

/-- The child loop of `buildXPathMap`: a per-(nodeType, lowercased nodeName)
counter keyed by the string `"{nodeType}:{name}"` is incremented before use,
so every emitted index is at least 1. -/
def buildXPathChildren : List DomNode → String → List (String × Nat) →
    List (Nat × String) → List (Nat × String)
  | [], _, _, m => m
  | child :: rest, path, counters, m =>
    let name := jsToLower (nodeNameOf child)
    let counterKey := toString (nodeTypeOf child) ++ ":" ++ name
    let idx := (smapGet counters counterKey).getD 0 + 1
    let counters1 := smapSet counters counterKey idx
    let segment := xpathSegment (nodeTypeOf child) name idx
    let m1 := buildXPathMap child (path ++ "/" ++ segment) m
    buildXPathChildren rest path counters1 m1

end

/-- The strings built by successive `path + "/" + segment` extensions with an
index of at least 1 on every segment — i.e. the XPaths in which every segment
carries an explicit positional predicate. -/
inductive IndexedPath : String → Prop where
  | nil : IndexedPath ""
  | snoc (p : String) (t : Nat) (n : String) (i : Nat) (hp : IndexedPath p)
      (hi : 1 ≤ i) : IndexedPath (p ++ "/" ++ xpathSegment t n i)

/-- The sibling-index computation of the in-page XPath generator evaluated by
`buildElementMappings`: the number of previous *element* siblings with the
same `tagName` (the `previousElementSibling` walk). -/
def countPrevSameTag (siblings : List DomNode) (i : Nat) (tag : String) :
    Nat :=
  ((siblings.take i).filter
    (fun s => decide (nodeTypeOf s = 1) && decide (nodeNameOf s = tag))).length

/-- One step of the in-page XPath generator for the child at position `i`:
`'/' + tagName + position` where `position` is `'[' + (index + 1) + ']'` when
`index > 0` and the *empty string* when the element is the first of its tag.
Non-element nodes yield `none` (the source's upward walk stops at them). -/
def jsSegmentAt (siblings : List DomNode) (i : Nat) : Option String :=
  match siblings.get? i with
  | none => none
  | some c =>
    if nodeTypeOf c = 1 then
      let index := countPrevSameTag siblings i (nodeNameOf c)
      let tagName := jsToLower (nodeNameOf c)
      let position :=
        if 0 < index then "[" ++ toString (index + 1) ++ "]" else ""
      some ("/" ++ tagName ++ position)
    else none

/-- The XPath computed by the in-page generator for the element reached from
`root` by the given child-index path (the source walks up via
`parentElement`, prepending segments; this is the same string built top
down). -/
def inPageXPath : DomNode → List Nat → Option String
  | _, [] => some ""
  | parent, i :: rest =>
    match jsSegmentAt (domChildrenOf parent) i with
    | none => none
    | some seg =>
      match (domChildrenOf parent).get? i with
      | none => none
      | some c =>
        match inPageXPath c rest with
        | none => none
        | some tail => some (seg ++ tail)

/-- Split a character list at `'/'` (helper for the segment checker). -/
def splitOnSlashAux : List Char → List Char → List (List Char)
  | acc, [] => [acc.reverse]
  | acc, c :: rest =>
    if c == '/' then acc.reverse :: splitOnSlashAux [] rest
    else splitOnSlashAux (c :: acc) rest

/-- Does one XPath segment carry a positional predicate (`…[n]`)? -/
def segIndexedB (seg : List Char) : Bool :=
  !seg.isEmpty && (seg.getLast? == some ']') && seg.contains '['

/-- Does every segment of the XPath carry a positional predicate? -/
def xpathAllIndexedB (s : String) : Bool :=
  ((splitOnSlashAux [] s.data).filter (fun seg => !seg.isEmpty)).all
    segIndexedB

/-- A document whose body contains a single `div` — every element is the
first sibling of its tag. -/
def domDoc : DomNode :=
  .mk 9 "#document" 1
    [.mk 1 "HTML" 2
      [.mk 1 "BODY" 3
        [.mk 1 "DIV" 4 []]]]


/-! ### Theorems about the auth flow -/

theorem waitLoop_eq_contains (polls : List Bool) :
    waitLoop polls = polls.contains false := by
  induction polls with
  | nil => rfl
  | cons b rest ih =>
    cases b <;> simp [waitLoop, List.contains, ih]

/-- C2 counterexample: with auth required and a single successful poll, the
emitted status sequence is `checking, in-progress, completed` — the `required`
state claimed by the spec is never emitted (the source comments that emission
out), so the claimed sequence `checking, required, in-progress, completed`
does not occur. -/
theorem checkAndHandleAuth_no_required_state :
    checkAndHandleAuth true [false] =
      ([AuthStatus.checking, AuthStatus.inProgress, AuthStatus.completed], true)
    ∧ ([AuthStatus.checking, AuthStatus.inProgress, AuthStatus.completed] :
        List AuthStatus) ≠
      [AuthStatus.checking, AuthStatus.required, AuthStatus.inProgress,
        AuthStatus.completed] := by
  constructor
  · rfl
  · decide

/-- C2 (amended): `checkAndHandleAuth` emits exactly
`checking → in-progress → completed` (returning true) when some poll finds the
lexicon matches gone, exactly `checking → in-progress → failed` (returning
false) when every poll up to the timeout still matches, and exactly
`checking → completed` when no auth is needed; the `required` state is never
emitted because its emission is disabled in the source. -/
theorem checkAndHandleAuth_emission_order (authRequired : Bool)
    (polls : List Bool) :
    checkAndHandleAuth authRequired polls =
      if authRequired then
        if polls.contains false then
          ([AuthStatus.checking, AuthStatus.inProgress, AuthStatus.completed],
            true)
        else
          ([AuthStatus.checking, AuthStatus.inProgress, AuthStatus.failed],
            false)
      else ([AuthStatus.checking, AuthStatus.completed], true) := by
  cases authRequired with
  | false => rfl
  | true =>
    by_cases h : polls.contains false = true
    · simp [checkAndHandleAuth, waitForAuthentication, waitLoop_eq_contains, h]
    · rw [Bool.not_eq_true] at h
      simp [checkAndHandleAuth, waitForAuthentication, waitLoop_eq_contains, h]

/-- C6: `detectAuthRequired` returns true on enumeration failure (fails
closed); on success it returns true iff some enumerated element matches; and
an element matches iff its lowercased description concatenated with the
lowercased space-joined auxiliary argument text contains some keyword of the
fixed lexicon. -/
theorem detectAuthRequired_characterisation :
    (detectAuthRequired (Except.error ()) = true)
    ∧ (∀ obsList : List Observation,
        detectAuthRequired (Except.ok obsList) = true ↔
          ∃ o ∈ obsList, isAuthElement o = true)
    ∧ (∀ o : Observation,
        isAuthElement o = true ↔
          ∃ kw ∈ AUTH_INDICATORS,
            strIncludes
              (jsToLower o.description ++ " " ++
                jsToLower (joinSpace o.arguments)) kw = true) := by
  refine ⟨rfl, ?_, ?_⟩
  · intro obsList
    simp [detectAuthRequired, List.length_pos, List.mem_filter]
  · intro o
    simp [isAuthElement, List.any_eq_true]

/-! ### Theorems about the tree filter -/

/-- C7: the filter keeps a node iff its role is not in the noise set and at
least one of the following holds: its role is allow-listed, it carries a true
focusable/clickable/editable property, its name or value text exceeds 2
characters, or it has children. -/
theorem shouldInclude_iff (n : AXFilterNode) :
    shouldInclude n = true ↔
      (optRoleMem NOISE_ROLES n.role = false ∧
        (optRoleMem ALWAYS_INCLUDE_ROLES n.role = true ∨
          hasActionableProp n = true ∨
          textLongEnough n.name = true ∨ textLongEnough n.value = true ∨
          n.childIds ≠ [])) := by
  simp only [shouldInclude]
  split_ifs with h1 h2 h3 h4 h5
  all_goals simp_all [← List.length_pos, Bool.or_eq_true]
  all_goals tauto

/-- C8: filtering is idempotent — running the filter again on the nodes that
survived a first application removes no additional nodes. -/
theorem filteredMeaningful_idempotent (nodes : List AXFilterNode) :
    filteredMeaningful (filteredMeaningful nodes) = filteredMeaningful nodes := by
  simp [filteredMeaningful, List.filter_filter]

/-! ### Theorems about the action executor -/

theorem runPrim_extends (env : ActEnv) (t : List Prim) (p : Prim) :
    ∃ ext, (runPrim env t p).1 = t ++ ext := by
  unfold runPrim
  split_ifs
  · exact ⟨[], by simp⟩
  · exact ⟨[p], rfl⟩

theorem runPrims_extends (env : ActEnv) (ps : List Prim) :
    ∀ t, ∃ ext, (runPrims env t ps).1 = t ++ ext := by
  induction ps with
  | nil => exact fun t => ⟨[], by simp [runPrims]⟩
  | cons p ps ih =>
    intro t
    simp only [runPrims]
    split
    · obtain ⟨e1, h1⟩ := runPrim_extends env t p
      obtain ⟨e2, h2⟩ := ih (runPrim env t p).1
      exact ⟨e1 ++ e2, by rw [h2, h1, List.append_assoc]⟩
    · obtain ⟨e1, h1⟩ := runPrim_extends env t p
      exact ⟨e1, h1⟩

theorem execBranch_extends (env : ActEnv) (t : List Prim) (a : SingleAction) :
    ∃ ext, (execBranch env t a).1 = t ++ ext := by
  unfold execBranch
  repeat' split
  all_goals first
    | apply runPrim_extends
    | apply runPrims_extends
    | exact ⟨[], (List.append_nil t).symm⟩

theorem execAction_extends (env : ActEnv) (t : List Prim) (a : SingleAction) :
    ∃ ext, (execAction env t a).1 = t ++ ext := by
  simp only [execAction]
  obtain ⟨e1, h1⟩ := execBranch_extends env t a
  split
  · obtain ⟨e2, h2⟩ := runPrim_extends env (execBranch env t a).1 (.wait 500)
    exact ⟨e1 ++ e2, by rw [h2, h1, List.append_assoc]⟩
  · exact ⟨e1, h1⟩

theorem actGo_append (env : ActEnv) (l1 l2 : List SingleAction) :
    ∀ t, actGo env t (l1 ++ l2) =
      if (actGo env t l1).2 then actGo env (actGo env t l1).1 l2
      else actGo env t l1 := by
  induction l1 with
  | nil => intro t; simp [actGo]
  | cons a l1 ih =>
    intro t
    simp only [List.cons_append, actGo]
    split
    · exact ih (execAction env t a).1
    · simp

/-- C5: if an action of the plan fails — its target resolves to zero
candidates, its resolution throws, or a page primitive throws — then `act`
returns `false`, the result is exactly that of the plan truncated at the
failing action (the remaining actions are not executed, and the primitives
already executed stay in the trace, i.e. nothing is undone), and a
zero-candidate resolution always makes the action fail. -/
theorem act_failure_aborts (env : ActEnv) (pre : List SingleAction)
    (a : SingleAction) (post : List SingleAction)
    (hplan : env.planResult = Except.ok (pre ++ a :: post))
    (hpre : (actGo env [] pre).2 = true)
    (hfail : (execAction env (actGo env [] pre).1 a).2 = false) :
    act env = ((execAction env (actGo env [] pre).1 a).1, false)
    ∧ act env = actGo env [] (pre ++ [a])
    ∧ (∀ (env' : ActEnv) (t' : List Prim) (a' : SingleAction) (tgt : String),
        a'.target = some tgt → tgt ≠ "" →
        env'.resolve t' tgt = Except.ok [] →
        (execAction env' t' a').2 = false) := by
  have hsplit : ∀ post' : List SingleAction,
      actGo env [] (pre ++ a :: post') =
        ((execAction env (actGo env [] pre).1 a).1, false) := by
    intro post'
    rw [actGo_append env pre (a :: post') [], hpre, if_pos rfl]
    simp only [actGo]
    rw [if_neg (by simp [hfail])]
  refine ⟨?_, ?_, ?_⟩
  · simp only [act, hplan]
    exact hsplit post
  · simp only [act, hplan]
    rw [hsplit post]
    have : pre ++ [a] = pre ++ a :: [] := rfl
    rw [this, hsplit []]
  · intro env' t' a' tgt htgt hne hres
    have htruthy : truthyStr a'.target = true := by
      simp [truthyStr, htgt, hne]
    simp only [execAction, execBranch, htruthy, if_pos]
    rw [htgt]
    simp only [Option.getD_some, hres]
    simp

/-- C5 witness: on a concrete three-action plan whose middle action's target
resolves to zero candidates, `act` executes the first action, aborts, and
returns `false` with the third action unexecuted. -/
theorem act_failure_aborts_witness :
    envNoCandidates.planResult =
      Except.ok ([⟨ActKind.press, none, none, some "Enter"⟩] ++
        ⟨ActKind.click, some "the missing box", none, none⟩ ::
          [⟨ActKind.press, none, none, some "Enter"⟩])
    ∧ (actGo envNoCandidates []
        [⟨ActKind.press, none, none, some "Enter"⟩]).2 = true
    ∧ (execAction envNoCandidates
        (actGo envNoCandidates []
          [⟨ActKind.press, none, none, some "Enter"⟩]).1
        ⟨ActKind.click, some "the missing box", none, none⟩).2 = false
    ∧ act envNoCandidates =
        ([Prim.keyboardPress "Enter", Prim.wait 500], false) := by
  refine ⟨rfl, by decide, by decide, ?_⟩
  have h := (act_failure_aborts envNoCandidates
    [⟨ActKind.press, none, none, some "Enter"⟩]
    ⟨ActKind.click, some "the missing box", none, none⟩
    [⟨ActKind.press, none, none, some "Enter"⟩]
    rfl (by decide) (by decide)).1
  rw [h]
  decide

/-- C9: when every action of the plan succeeds, `act`'s loop executes the
actions strictly in plan order — the final trace is the left fold of the
per-action execution over the plan, so each action's primitives are appended
before the next action starts — and every successful action's contribution
ends with the fixed 500ms settle delay appended after its primitives. -/
theorem act_plan_sequential (env : ActEnv) (t : List Prim)
    (acts : List SingleAction) (h : planOk env t acts = true) :
    actGo env t acts =
      (acts.foldl (fun tr a => (execAction env tr a).1) t, true)
    ∧ (∀ (tr : List Prim) (a : SingleAction),
        (execAction env tr a).2 = true →
        ∃ mid, (execAction env tr a).1 = tr ++ mid ++ [Prim.wait 500]) := by
  constructor
  · induction acts generalizing t with
    | nil => simp [actGo]
    | cons a rest ih =>
      simp only [planOk, Bool.and_eq_true] at h
      simp only [actGo, List.foldl_cons]
      rw [if_pos h.1]
      exact ih (execAction env t a).1 h.2
  · intro tr a hsucc
    simp only [execAction] at hsucc ⊢
    obtain ⟨mid, hmid⟩ := execBranch_extends env tr a
    by_cases hb : (execBranch env tr a).2 = true
    · rw [if_pos hb] at hsucc ⊢
      simp only [runPrim] at hsucc ⊢
      by_cases hp : env.primFails (execBranch env tr a).1 (Prim.wait 500) = true
      · rw [if_pos hp] at hsucc
        simp at hsucc
      · rw [if_neg hp]
        exact ⟨mid, by rw [hmid]⟩
    · rw [if_neg hb] at hsucc
      simp at hsucc

/-- C9 witness: a concrete two-step plan — click the search box, then type
"hello" into it — executes the click (and its settle delay) strictly before
the type; the final trace shows the full order, click first. -/
theorem act_plan_sequential_witness :
    planOk envSeq []
      [⟨ActKind.click, some "the search box", none, none⟩,
        ⟨ActKind.type, some "the search box", some "hello", none⟩] = true
    ∧ actGo envSeq []
        [⟨ActKind.click, some "the search box", none, none⟩,
          ⟨ActKind.type, some "the search box", some "hello", none⟩] =
      ([Prim.click "xpath=/html[1]/body[1]/input[1]", Prim.wait 500,
        Prim.click "xpath=/html[1]/body[1]/input[1]",
        Prim.fill "xpath=/html[1]/body[1]/input[1]" "",
        Prim.typeText "xpath=/html[1]/body[1]/input[1]" "hello",
        Prim.wait 500], true) := by
  constructor
  · decide
  · have h := (act_plan_sequential envSeq []
      [⟨ActKind.click, some "the search box", none, none⟩,
        ⟨ActKind.type, some "the search box", some "hello", none⟩]
      (by decide)).1
    rw [h]
    decide

/-- C10 counterexample: a `press` action that has a target description but no
key still resolves its target; on a page where the target description yields
zero candidates, `act` returns `false` — contradicting the claim that such an
action never makes `act` return `false`. -/
theorem act_press_without_key_can_fail :
    act envPressNoKey = ([], false) := by decide

/-- C10 (amended): an action whose fields fit no execution branch and that has
no target — `click`/`clear`/`select` with no target, `press` with no target
and no key, `type` with no target and no value — executes no page primitive
and always succeeds; a `press` with a target but no key executes no page
primitive either once its target resolves to at least one candidate (only the
settle delay runs), but its target is still resolved, so a zero-candidate
resolution makes `act` return `false`; and `act` can return `true` while
performing none of the plan's actions (only settle delays). -/
theorem act_misfit_no_primitive (env : ActEnv) (t : List Prim)
    (a : SingleAction) :
    (truthyStr a.target = false →
      ¬(a.action = ActKind.press ∧ truthyStr a.key = true) →
      ¬(a.action = ActKind.type ∧ truthyStr a.value = true) →
      execBranch env t a = (t, true))
    ∧ (∀ (tgt : String) (els : List FoundElement),
        a.target = some tgt → tgt ≠ "" →
        a.action = ActKind.press → truthyStr a.key = false →
        env.resolve t tgt = Except.ok els → els ≠ [] →
        execBranch env t a = (t, true))
    ∧ act envMisfit = ([Prim.wait 500], true) := by
  refine ⟨?_, ?_, by decide⟩
  · intro h1 h2 h3
    simp only [execBranch, h1, Bool.false_eq_true, if_false]
    rw [if_neg h2, if_neg h3]
  · intro tgt els htgt hne hpress hkey hres hels
    have htruthy : truthyStr a.target = true := by
      simp [truthyStr, htgt, hne]
    simp only [execBranch, htruthy, if_pos, htgt, Option.getD_some, hres]
    have hlen : ¬els.length = 0 := by
      simp [List.length_eq_zero, hels]
    rw [if_neg hlen, hpress]
    simp [hkey]

/-- C10 witness: instantiation of the misfit-action theorem at a concrete
no-target `click` action: no branch applies and the action body succeeds
without any primitive. -/
theorem act_misfit_no_primitive_witness :
    execBranch envMisfit [] ⟨ActKind.click, none, none, none⟩ = ([], true) :=
  (act_misfit_no_primitive envMisfit []
    ⟨ActKind.click, none, none, none⟩).1 rfl (by decide) (by decide)

/-! ### Theorems about the snapshot state maps (C3) -/

theorem mapGet_mapSet {α : Type} (m : List (Nat × α)) (k' : Nat) (v : α)
    (k : Nat) :
    mapGet (mapSet m k' v) k = if k' = k then some v else mapGet m k := by
  induction m with
  | nil => simp [mapSet, mapGet]
  | cons e rest ih =>
    obtain ⟨a, b⟩ := e
    by_cases hak : a = k'
    · subst hak
      simp only [mapSet, if_pos rfl, mapGet]
      by_cases h : a = k
      · simp [h]
      · simp [h, mapGet]
    · simp only [mapSet, if_neg hak, mapGet, ih]
      by_cases hk : a = k
      · subst hk
        have : k' ≠ a := fun hh => hak hh.symm
        simp [this]
      · simp [hk]

theorem buildElementMappings_preserves (nodes : List AXRawNode) :
    ∀ (m : List (Nat × ElementMapping)) (k : Nat),
      (mapGet m k).isSome = true →
      (mapGet (buildElementMappings nodes m) k).isSome = true := by
  induction nodes with
  | nil => intro m k h; exact h
  | cons n rest ih =>
    intro m k h
    apply ih
    unfold buildElementMappingsStep
    split_ifs with h1
    · cases hres : resolvedOf n with
      | none => simpa using h
      | some info =>
        simp only [hres, mapGet_mapSet]
        split_ifs <;> simp [h]
    · exact h

/-- C3 counterexample: after a second snapshot whose node list mentions only
backend id 2, the element-mapping entry for backend id 1 — produced by the
first snapshot — is still present: the element-mapping map is not cleared
between snapshots. -/
theorem elementMappings_survive_snapshot :
    (mapGet (snapshotStep (snapshotStep initialNavState [axNodeA])
        [axNodeB]).elementMappings 1).isSome = true
    ∧ backendIdOf axNodeB ≠ 1 := by
  constructor
  · decide
  · decide

/-- C3 (amended): the sequential-id map is cleared and fully rebuilt on every
snapshot (its post-snapshot contents depend only on the new node list), but
the element-mapping map is only added to by a snapshot — every existing key
survives (same-key entries are overwritten) — and is cleared only by
`cleanup`. -/
theorem snapshot_map_lifecycle :
    (∀ (st : NavState) (nodes : List AXRawNode),
      (snapshotStep st nodes).nodeIdToBackendId = axBuildMappings nodes [])
    ∧ (∀ (st : NavState) (nodes : List AXRawNode) (k : Nat),
        (mapGet st.elementMappings k).isSome = true →
        (mapGet (snapshotStep st nodes).elementMappings k).isSome = true)
    ∧ (∀ st : NavState, (cleanupState st).elementMappings = []) := by
  refine ⟨fun st nodes => rfl, ?_, fun st => rfl⟩
  intro st nodes k h
  simpa [snapshotStep, formatTreeMappingsPass] using
    buildElementMappings_preserves nodes st.elementMappings k h

/-- C3 witness: instantiation of the lifecycle theorem on the two concrete
snapshots — the id map after the second snapshot is the rebuild from its
nodes alone, and the element-mapping entry for backend id 1 survives it. -/
theorem snapshot_map_lifecycle_witness :
    (snapshotStep (snapshotStep initialNavState [axNodeA])
        [axNodeB]).nodeIdToBackendId = axBuildMappings [axNodeB] []
    ∧ (mapGet (snapshotStep (snapshotStep initialNavState [axNodeA])
        [axNodeB]).elementMappings 1).isSome = true
    ∧ (cleanupState (snapshotStep initialNavState [axNodeA])).elementMappings
        = [] :=
  ⟨snapshot_map_lifecycle.1 (snapshotStep initialNavState [axNodeA]) [axNodeB],
    snapshot_map_lifecycle.2.1 (snapshotStep initialNavState [axNodeA])
      [axNodeB] 1 (by decide),
    snapshot_map_lifecycle.2.2 (snapshotStep initialNavState [axNodeA])⟩

/-! ### Theorems about XPath construction (C4) -/

theorem mem_mapSet {α : Type} (k : Nat) (v : α) :
    ∀ (m : List (Nat × α)) (e : Nat × α),
      e ∈ mapSet m k v → e = (k, v) ∨ e ∈ m := by
  intro m
  induction m with
  | nil =>
    intro e he
    simp [mapSet] at he
    exact Or.inl he
  | cons a rest ih =>
    intro e he
    obtain ⟨k', v'⟩ := a
    simp only [mapSet] at he
    by_cases h : k' = k
    · rw [if_pos h] at he
      rcases List.mem_cons.mp he with h1 | h2
      · exact Or.inl h1
      · exact Or.inr (List.mem_cons_of_mem _ h2)
    · rw [if_neg h] at he
      rcases List.mem_cons.mp he with h1 | h2
      · exact Or.inr (h1 ▸ List.mem_cons_self _ _)
      · rcases ih e h2 with h3 | h4
        · exact Or.inl h3
        · exact Or.inr (List.mem_cons_of_mem _ h4)

theorem buildXPathMap_good_aux (N : Nat) :
    (∀ node : DomNode, sizeOf node ≤ N →
      ∀ (path : String) (m : List (Nat × String)), IndexedPath path →
        (∀ e ∈ m, e.2 = "/" ∨ IndexedPath e.2) →
        ∀ e ∈ buildXPathMap node path m, e.2 = "/" ∨ IndexedPath e.2)
    ∧ (∀ cs : List DomNode, sizeOf cs ≤ N →
      ∀ (path : String) (counters : List (String × Nat))
        (m : List (Nat × String)), IndexedPath path →
        (∀ e ∈ m, e.2 = "/" ∨ IndexedPath e.2) →
        ∀ e ∈ buildXPathChildren cs path counters m,
          e.2 = "/" ∨ IndexedPath e.2) := by
  induction N with
  | zero =>
    constructor
    · rintro ⟨t, nm, b, cs⟩ hsz
      simp [DomNode.mk.sizeOf_spec] at hsz
    · rintro (_ | ⟨c, rest⟩) hsz
      · simp at hsz
      · simp at hsz
  | succ N ih =>
    constructor
    · rintro ⟨t, nm, b, cs⟩ hsz path m hpath hm e he
      simp only [buildXPathMap] at he
      have hcs : sizeOf cs ≤ N := by
        simp [DomNode.mk.sizeOf_spec] at hsz
        omega
      refine ih.2 cs hcs path [] _ hpath ?_ e he
      intro e' he'
      by_cases hb : b ≠ 0
      · rw [if_pos hb] at he'
        rcases mem_mapSet b _ m e' he' with h1 | h2
        · subst h1
          by_cases hp : path = ""
          · simp [hp]
          · right
            simpa [hp] using hpath
        · exact hm e' h2
      · rw [if_neg hb] at he'
        exact hm e' he'
    · rintro (_ | ⟨c, rest⟩) hsz path counters m hpath hm e he
      · exact hm e he
      · simp only [buildXPathChildren] at he
        have hrest : sizeOf rest ≤ N := by
          simp at hsz
          omega
        have hc : sizeOf c ≤ N := by
          simp at hsz
          omega
        refine ih.2 rest hrest path _ _ hpath ?_ e he
        intro e' he'
        exact ih.1 c hc _ m
          (IndexedPath.snoc path (nodeTypeOf c) (jsToLower (nodeNameOf c))
            ((smapGet counters
              (toString (nodeTypeOf c) ++ ":" ++
                jsToLower (nodeNameOf c))).getD 0 + 1)
            hpath (by omega))
          hm e' he'

/-- C4 counterexample: for a document whose every element is the first
sibling of its tag, the in-page generator that produces the XPath stored in
the element mapping emits `/html/body/div` — omitting the positional
predicate on every segment — while the always-indexed form would be
`/html[1]/body[1]/div[1]`; so the XPath carried by an element mapping does
not put an explicit index on every segment. -/
theorem elementMapping_xpath_omits_index :
    inPageXPath domDoc [0, 0, 0] = some "/html/body/div"
    ∧ xpathAllIndexedB "/html/body/div" = false
    ∧ xpathAllIndexedB "/html[1]/body[1]/div[1]" = true := by
  refine ⟨by decide, by decide, by decide⟩

/-- C4 (amended): every XPath produced by the depth-first DOM-walk XPath map
builder (`buildXPathMap`) is the root `"/"` or a chain of segments each
carrying an explicit positional predicate with index ≥ 1 (and each segment
renders as `…[idx]`); but the XPath stored in an `ElementMapping` comes from
the separate in-page generator, which covers only element nodes and omits
the predicate entirely when the element is the first sibling of its tag. -/
theorem xpath_index_policy :
    (∀ (root : DomNode) (e : Nat × String), e ∈ buildXPathMap root "" [] →
      e.2 = "/" ∨ IndexedPath e.2)
    ∧ (∀ (t : Nat) (n : String) (i : Nat),
        ∃ stem, xpathSegment t n i = stem ++ "[" ++ toString i ++ "]")
    ∧ (∀ (siblings : List DomNode) (i : Nat) (c : DomNode),
        siblings.get? i = some c → nodeTypeOf c = 1 →
        countPrevSameTag siblings i (nodeNameOf c) = 0 →
        jsSegmentAt siblings i = some ("/" ++ jsToLower (nodeNameOf c))) := by
  refine ⟨?_, ?_, ?_⟩
  · intro root e he
    exact (buildXPathMap_good_aux (sizeOf root)).1 root le_rfl "" []
      IndexedPath.nil (by simp) e he
  · intro t n i
    unfold xpathSegment
    split_ifs
    · exact ⟨"text()", by rw [show ("text()" ++ "[" : String) = "text()[" from
        by decide]⟩
    · exact ⟨"comment()", by rw [show ("comment()" ++ "[" : String) =
        "comment()[" from by decide]⟩
    · exact ⟨n, rfl⟩
  · intro siblings i c hget htype hcount
    rw [List.get?_eq_getElem?] at hget
    simp [jsSegmentAt, hget, htype, hcount]

/-- C4 witness: instantiation of the index-policy theorem — `buildXPathMap`
on the concrete document maps backend id 2 to `/html[1]` (an indexed path),
and the in-page generator's segment for the first (and only) `HTML` child is
the bare `/html`. -/
theorem xpath_index_policy_witness :
    ((2 : Nat), "/html[1]").2 = "/" ∨ IndexedPath ((2 : Nat), "/html[1]").2 :=
  xpath_index_policy.1 domDoc (2, "/html[1]") (by decide)

/-- C1 counterexample: when the snapshot acquisition fails, `findElements`
propagates the exception instead of returning `[]`, and `extract` (here with
an `area`, so it resolves via `findElements`) propagates it instead of
returning `null` — the steady-state entry points can throw. -/
theorem findElements_extract_can_throw :
    findElements findEnvCrash = Except.error ()
    ∧ extract extractEnvCrash = Except.error () := ⟨rfl, rfl⟩

/-- C1 (amended): `findElements` never throws once the snapshot acquisition
succeeds, and returns `[]` when the LLM call fails; `extract` returns `null`
on an LLM failure once its content acquisition succeeds; `act` catches the
plan-parsing failure and returns `false`; but snapshot/content-acquisition
failures in `findElements` and `extract` propagate to the caller. -/
theorem steady_state_error_containment :
    (∀ env : FindEnv, (∃ snap, env.snapshot = Except.ok snap) →
      ∃ r, findElements env = Except.ok r)
    ∧ (∀ (env : FindEnv) (snap : NavSnapshot),
        env.snapshot = Except.ok snap → env.llm = Except.error () →
        findElements env = Except.ok [])
    ∧ (∀ (α : Type) (env : ExtractEnv α),
        (∃ c, extractContent env = Except.ok c) →
        env.llm = Except.error () → extract env = Except.ok none)
    ∧ (∀ env : ActEnv, env.planResult = Except.error () →
        act env = ([], false)) := by
  refine ⟨?_, ?_, ?_, ?_⟩
  · rintro env ⟨snap, hsnap⟩
    cases hllm : env.llm with
    | error e => exact ⟨[], by simp [findElements, hsnap, hllm]⟩
    | ok response =>
      exact ⟨resolveElements response.elements snap,
        by simp [findElements, hsnap, hllm]⟩
  · intro env snap hsnap hllm
    simp [findElements, hsnap, hllm]
  · rintro α env ⟨c, hc⟩ hllm
    simp [extract, hc, hllm]
  · intro env hplan
    simp [act, hplan]

/-- C1 witness: concrete environments instantiating the amended theorem —
a successful snapshot with a failing LLM call gives `[]` from `findElements`
and `null` from `extract`, and a failing plan parse gives `false` from
`act`. -/
theorem steady_state_error_containment_witness :
    (∃ r, findElements findEnvLLMErr = Except.ok r)
    ∧ findElements findEnvLLMErr = Except.ok []
    ∧ extract extractEnvLLMErr = Except.ok none
    ∧ act actEnvPlanErr = ([], false) :=
  ⟨steady_state_error_containment.1 findEnvLLMErr ⟨⟨[], []⟩, rfl⟩,
    steady_state_error_containment.2.1 findEnvLLMErr ⟨[], []⟩ rfl rfl,
    steady_state_error_containment.2.2.1 Nat extractEnvLLMErr
      ⟨"[1] RootWebArea", rfl⟩ rfl,
    steady_state_error_containment.2.2.2 actEnvPlanErr rfl⟩
